import Mathlib

/-!
# Subject hierarchy transform plugin

A shallow embedding of `qSlicerSubjectHierarchyTransformPlugin.cxx`: the context-menu
plugin that applies, removes, hardens or toggles interactive editing of a transform on a
subject hierarchy item and all of its descendants.

The plugin works on objects owned by the host application (MRML scene, MRML nodes, the
subject hierarchy node, Qt actions).  Those host objects are not part of the plugin source;
they are modelled below, each with a doc comment that says so.  The plugin functions
themselves (`appliedTransformToItem`, `applyTransformToItem`,
`firstAppliedTransformToSelectedItems`, `showTransformContextMenuActionsForItem` and the
slots) are transcribed from the source, keeping its names, its null guards and its loop
structure.

Pointers to MRML nodes are represented by node IDs: two node pointers are equal exactly when
the IDs are equal, and a pointer is dereferenced by looking the ID up in the scene.
-/

namespace TransformPlugin

/-! ## Host data model -/

/-- Subject hierarchy item identifier (`vtkIdType`). -/
abbrev vtkIdType := Int

/-- MRML node identifier (`const char*` in the source, abstracted to a number); a null
ID is `none` at the places where the source passes or stores one. -/
abbrev NodeID := Nat

/-- Modelled from the spec: the part of the MRML class hierarchy the plugin distinguishes
through `SafeDownCast`.  `vtkMRMLTransformNode` is a `vtkMRMLTransformableNode` (the source
compares pointers of the two types directly); `vtkMRMLNode` stands for every node class that
is not transformable. -/
inductive NodeClass where
  | vtkMRMLNode
  | vtkMRMLTransformableNode
  | vtkMRMLTransformNode
  deriving DecidableEq, Repr

/-- Modelled from the spec: the display node of a transform node; the plugin reads and
writes only its editor visibility. -/
structure vtkMRMLTransformDisplayNode where
  EditorVisibility : Bool
  deriving DecidableEq, Repr

/-- Modelled from the spec: an MRML node, with the attributes the plugin reads or writes:
its ID, its class, the hide-from-editors flag, the parent-transform node ID (the reference
set by `SetAndObserveTransformNodeID`) and its display node. -/
structure vtkMRMLNode where
  ID : NodeID
  nodeClass : NodeClass
  HideFromEditors : Bool
  TransformNodeID : Option NodeID
  DisplayNode : Option vtkMRMLTransformDisplayNode
  deriving DecidableEq, Repr

/-- Modelled from the spec: the MRML scene, the nodes in scene order, and whether the scene
is able to create a new node (`AddNewNodeByClass` returns a null pointer when it is not). -/
structure vtkMRMLScene where
  Nodes : List vtkMRMLNode
  NodeCreationSucceeds : Bool
  deriving DecidableEq, Repr

/-- Downcast to `vtkMRMLTransformableNode`: null for a null pointer and for a node that is
not transformable. -/
def vtkMRMLTransformableNode.SafeDownCast (node : Option vtkMRMLNode) : Option vtkMRMLNode :=
  node.filter (fun n => n.nodeClass != NodeClass.vtkMRMLNode)

/-- Downcast to `vtkMRMLTransformNode`. -/
def vtkMRMLTransformNode.SafeDownCast (node : Option vtkMRMLNode) : Option vtkMRMLNode :=
  node.filter (fun n => n.nodeClass == NodeClass.vtkMRMLTransformNode)

namespace vtkMRMLScene

/-- Modelled from the spec: `vtkMRMLScene::GetNodeByID`, the node of the scene with the given
ID, if any. -/
def GetNodeByID (scene : vtkMRMLScene) (id : NodeID) : Option vtkMRMLNode :=
  scene.Nodes.find? (fun n => n.ID == id)

/-- Modelled from the spec: `vtkMRMLScene::GetNodesByClass("vtkMRMLTransformNode", ...)`,
the transform nodes of the scene in scene order. -/
def GetNodesByClass_vtkMRMLTransformNode (scene : vtkMRMLScene) : List vtkMRMLNode :=
  scene.Nodes.filter (fun n => n.nodeClass == NodeClass.vtkMRMLTransformNode)

/-- Apply a change to every node object of the scene. -/
def mapNodes (scene : vtkMRMLScene) (f : vtkMRMLNode → vtkMRMLNode) : vtkMRMLScene :=
  { scene with Nodes := scene.Nodes.map f }

/-- Modelled from the spec: `vtkMRMLTransformableNode::SetAndObserveTransformNodeID` called
on the node with ID `nodeID`: the transform assignment, which stores the given transform
node ID as the parent-transform reference of that node. -/
def SetAndObserveTransformNodeID (scene : vtkMRMLScene) (nodeID : NodeID)
    (transformNodeID : Option NodeID) : vtkMRMLScene :=
  scene.mapNodes (fun n => if n.ID = nodeID then { n with TransformNodeID := transformNodeID } else n)

/-- Modelled from the spec: `vtkMRMLTransformableNode::GetParentTransformNode`: the
transform node of the scene that the node refers to as its parent transform; null when the
node has no parent-transform ID or the ID does not resolve to a transform node. -/
def GetParentTransformNode (scene : vtkMRMLScene) (node : vtkMRMLNode) : Option vtkMRMLNode :=
  vtkMRMLTransformNode.SafeDownCast (node.TransformNodeID.bind scene.GetNodeByID)

/-- An ID that no node of the scene uses. -/
def GenerateUniqueID (scene : vtkMRMLScene) : NodeID :=
  (scene.Nodes.map (fun n => n.ID)).foldr max 0 + 1

/-- Modelled from the spec: `vtkMRMLScene::AddNewNodeByClass("vtkMRMLTransformNode")`: when
the scene can create the node, a fresh transform node (unique ID, no parent transform, no
display node) is appended to the scene and returned; otherwise the result is null and the
scene is unchanged. -/
def AddNewNodeByClass_vtkMRMLTransformNode (scene : vtkMRMLScene) :
    Option vtkMRMLNode × vtkMRMLScene :=
  if scene.NodeCreationSucceeds then
    let newNode : vtkMRMLNode :=
      { ID := scene.GenerateUniqueID, nodeClass := NodeClass.vtkMRMLTransformNode,
        HideFromEditors := false, TransformNodeID := none, DisplayNode := none }
    (some newNode, { scene with Nodes := scene.Nodes ++ [newNode] })
  else
    (none, scene)

/-- Modelled from the spec: `vtkMRMLTransformNode::CreateDefaultDisplayNodes` called on the
node with ID `nodeID`: a node without display node gets a default one (editor not visible);
a node that has a display node is left as it is. -/
def CreateDefaultDisplayNodes (scene : vtkMRMLScene) (nodeID : NodeID) : vtkMRMLScene :=
  scene.mapNodes (fun n =>
    if n.ID = nodeID then
      match n.DisplayNode with
      | some _ => n
      | none => { n with DisplayNode := some { EditorVisibility := false } }
    else n)

/-- Modelled from the spec: `vtkMRMLTransformDisplayNode::SetEditorVisibility` called on the
display node of the node with ID `nodeID`. -/
def SetEditorVisibility (scene : vtkMRMLScene) (nodeID : NodeID) (visible : Bool) : vtkMRMLScene :=
  scene.mapNodes (fun n =>
    if n.ID = nodeID then
      { n with DisplayNode := n.DisplayNode.map (fun d => { d with EditorVisibility := visible }) }
    else n)

end vtkMRMLScene

/-- Modelled from the spec: an item of the subject hierarchy tree: its ID, the data node it
points to (if any) and its child items in order. -/
inductive vtkSubjectHierarchyItem where
  | mk (ID : vtkIdType) (DataNode : Option NodeID) (Children : List vtkSubjectHierarchyItem)

namespace vtkSubjectHierarchyItem

/-- ID of the item. -/
def ID : vtkSubjectHierarchyItem → vtkIdType
  | mk id _ _ => id

/-- Data node pointer of the item. -/
def DataNode : vtkSubjectHierarchyItem → Option NodeID
  | mk _ d _ => d

/-- Child items. -/
def Children : vtkSubjectHierarchyItem → List vtkSubjectHierarchyItem
  | mk _ _ cs => cs

mutual
/-- Modelled from the spec: the IDs of all descendants of the item (children, their
children, and so on), every child before its own descendants. -/
def GetAllChildren : vtkSubjectHierarchyItem → List vtkIdType
  | mk _ _ cs => GetAllChildrenOfList cs
/-- IDs of the given items and of all their descendants. -/
def GetAllChildrenOfList : List vtkSubjectHierarchyItem → List vtkIdType
  | [] => []
  | c :: cs => (c.ID :: GetAllChildren c) ++ GetAllChildrenOfList cs
end

mutual
/-- Modelled from the spec: the item with the given ID in the tree rooted at this item. -/
def FindItemByID (itemID : vtkIdType) : vtkSubjectHierarchyItem → Option vtkSubjectHierarchyItem
  | mk id d cs => if id = itemID then some (mk id d cs) else FindItemByIDInList itemID cs
/-- First item with the given ID in the trees rooted at the given items. -/
def FindItemByIDInList (itemID : vtkIdType) :
    List vtkSubjectHierarchyItem → Option vtkSubjectHierarchyItem
  | [] => none
  | c :: cs =>
    match FindItemByID itemID c with
    | some found => some found
    | none => FindItemByIDInList itemID cs
end

end vtkSubjectHierarchyItem

/-- Modelled from the spec: the subject hierarchy node, a tree of items under the scene
item. -/
structure vtkMRMLSubjectHierarchyNode where
  SceneItem : vtkSubjectHierarchyItem

namespace vtkMRMLSubjectHierarchyNode

/-- Modelled from the spec: `GetItemChildren(itemID, childIDs, recursive)`: the IDs of the
children of the item, recursively when asked; empty when the item does not exist. -/
def GetItemChildren (shNode : vtkMRMLSubjectHierarchyNode) (itemID : vtkIdType)
    (recursive : Bool) : List vtkIdType :=
  match shNode.SceneItem.FindItemByID itemID with
  | none => []
  | some item => if recursive then item.GetAllChildren else item.Children.map (fun c => c.ID)

/-- Modelled from the spec: `GetItemDataNode(itemID)`: the data node of the item; null when
the item does not exist, has no data node, or its data node is no longer in the scene. -/
def GetItemDataNode (shNode : vtkMRMLSubjectHierarchyNode) (scene : vtkMRMLScene)
    (itemID : vtkIdType) : Option vtkMRMLNode :=
  ((shNode.SceneItem.FindItemByID itemID).bind (fun item => item.DataNode)).bind scene.GetNodeByID

end vtkMRMLSubjectHierarchyNode

/-- Modelled from the spec: what the plugin reaches through
`qSlicerSubjectHierarchyPluginHandler::instance()`: the node objects (`Scene`), whether
`mrmlScene()` returns a scene, the subject hierarchy node returned by
`subjectHierarchyNode()` (possibly null) and the current items. -/
structure qSlicerSubjectHierarchyPluginHandler where
  Scene : vtkMRMLScene
  hasScene : Bool
  SubjectHierarchy : Option vtkMRMLSubjectHierarchyNode
  CurrentItems : List vtkIdType

namespace qSlicerSubjectHierarchyPluginHandler

/-- The handler's `subjectHierarchyNode()`. -/
def subjectHierarchyNode (h : qSlicerSubjectHierarchyPluginHandler) :
    Option vtkMRMLSubjectHierarchyNode :=
  h.SubjectHierarchy

/-- The handler's `mrmlScene()`. -/
def mrmlScene (h : qSlicerSubjectHierarchyPluginHandler) : Option vtkMRMLScene :=
  if h.hasScene then some h.Scene else none

/-- The handler's `currentItems()`. -/
def currentItems (h : qSlicerSubjectHierarchyPluginHandler) : List vtkIdType :=
  h.CurrentItems

end qSlicerSubjectHierarchyPluginHandler

/-! ## The plugin: subtree traversals -/

/-- The private method `applyTransformToItem` (source lines 228-256): the transform node ID
is set on the transformable data node of every recursive child of the item and of the item
itself; nothing happens without subject hierarchy node. -/
def applyTransformToItem (h : qSlicerSubjectHierarchyPluginHandler) (itemID : vtkIdType)
    (transformNodeID : Option NodeID) : qSlicerSubjectHierarchyPluginHandler :=
  match h.subjectHierarchyNode with
  | none => h
  | some shNode =>
    let itemIDsToTransform := shNode.GetItemChildren itemID true ++ [itemID]
    { h with Scene := itemIDsToTransform.foldl (fun scene itemIDToTransform =>
        match vtkMRMLTransformableNode.SafeDownCast (shNode.GetItemDataNode scene itemIDToTransform) with
        | none => scene
        | some node => scene.SetAndObserveTransformNodeID node.ID transformNodeID) h.Scene }

/-- Loop of `appliedTransformToItem` (source lines 192-224) over the remaining item IDs,
with the loop variables `foundTransform` and `commonTransformNode`; the result is the
returned node and the final value of `commonToAllChildren`. -/
def appliedTransformToItemLoop (shNode : vtkMRMLSubjectHierarchyNode) (scene : vtkMRMLScene) :
    List vtkIdType → Bool → Option vtkMRMLNode → Option vtkMRMLNode × Bool
  | [], _, commonTransformNode => (commonTransformNode, true)
  | itemIDToTransform :: rest, foundTransform, commonTransformNode =>
    match vtkMRMLTransformableNode.SafeDownCast (shNode.GetItemDataNode scene itemIDToTransform) with
    | none => appliedTransformToItemLoop shNode scene rest foundTransform commonTransformNode
    | some node =>
      let currentTransformNode := scene.GetParentTransformNode node
      if !foundTransform then
        appliedTransformToItemLoop shNode scene rest true currentTransformNode
      else if currentTransformNode.map (fun t => t.ID) != commonTransformNode.map (fun t => t.ID) then
        (commonTransformNode, false)
      else
        appliedTransformToItemLoop shNode scene rest foundTransform commonTransformNode

/-- The private method `appliedTransformToItem` (source lines 176-225): the returned
transform node and the output parameter `commonToAllChildren`. -/
def appliedTransformToItem (h : qSlicerSubjectHierarchyPluginHandler) (itemID : vtkIdType) :
    Option vtkMRMLNode × Bool :=
  match h.subjectHierarchyNode with
  | none => (none, false)
  | some shNode =>
    let itemIDsToTransform := itemID :: shNode.GetItemChildren itemID true
    appliedTransformToItemLoop shNode h.Scene itemIDsToTransform false none

/-- Inner loop of `firstAppliedTransformToSelectedItems` (source lines 277-293): the first
non-null parent transform of a transformable data node among the given items. -/
def firstAppliedTransformInItems (shNode : vtkMRMLSubjectHierarchyNode) (scene : vtkMRMLScene) :
    List vtkIdType → Option vtkMRMLNode
  | [] => none
  | childItemID :: rest =>
    match vtkMRMLTransformableNode.SafeDownCast (shNode.GetItemDataNode scene childItemID) with
    | none => firstAppliedTransformInItems shNode scene rest
    | some node =>
      match scene.GetParentTransformNode node with
      | none => firstAppliedTransformInItems shNode scene rest
      | some currentTransformNode => some currentTransformNode

/-- Outer loop of `firstAppliedTransformToSelectedItems` (source lines 270-294) over the
current items. -/
def firstAppliedTransformLoop (shNode : vtkMRMLSubjectHierarchyNode) (scene : vtkMRMLScene) :
    List vtkIdType → Option vtkMRMLNode
  | [] => none
  | itemID :: rest =>
    let childItemIDs := itemID :: shNode.GetItemChildren itemID true
    match firstAppliedTransformInItems shNode scene childItemIDs with
    | some currentTransformNode => some currentTransformNode
    | none => firstAppliedTransformLoop shNode scene rest

/-- The private method `firstAppliedTransformToSelectedItems` (source lines 259-296). -/
def firstAppliedTransformToSelectedItems (h : qSlicerSubjectHierarchyPluginHandler) :
    Option vtkMRMLNode :=
  match h.subjectHierarchyNode with
  | none => none
  | some shNode => firstAppliedTransformLoop shNode h.Scene h.currentItems

/-! ## The plugin: menu actions -/

/-- Modelled from the spec: the state of a Qt action that the plugin sets: the data attached
to it (a transform node ID for the per-transform actions) and its checkable, checked,
enabled and visible flags. -/
structure QAction where
  data : Option NodeID
  checkable : Bool
  checked : Bool
  enabled : Bool
  visible : Bool
  deriving DecidableEq, Repr

/-- A newly constructed action: no data, not checkable, not checked, enabled, visible. -/
def QAction.new : QAction :=
  { data := none, checkable := false, checked := false, enabled := true, visible := true }

/-- The members of `qSlicerSubjectHierarchyTransformPluginPrivate` (source lines 76-85).
`TransformActionGroup` lists the per-transform actions of the action group; the group
always contains `NoTransformAction` as well, which is kept in its own member. -/
structure qSlicerSubjectHierarchyTransformPluginPrivate where
  TransformInteractionInViewAction : QAction
  TransformEditPropertiesAction : QAction
  TransformHardenAction : QAction
  CreateNewTransformAction : QAction
  NoTransformAction : QAction
  TransformActionGroup : List QAction
  deriving DecidableEq, Repr

/-- The private `init` (source lines 106-153). -/
def qSlicerSubjectHierarchyTransformPluginPrivate.init :
    qSlicerSubjectHierarchyTransformPluginPrivate :=
  { TransformInteractionInViewAction := { QAction.new with checkable := true }
    TransformEditPropertiesAction := QAction.new
    TransformHardenAction := QAction.new
    CreateNewTransformAction := QAction.new
    NoTransformAction := { QAction.new with checkable := true }
    TransformActionGroup := [] }

/-- Loop of `showTransformContextMenuActionsForItem` over the transform nodes of the scene
(source lines 336-361): the per-transform actions added to the action group, in order. -/
def transformNodeActions (node : Option vtkMRMLNode) (allTransformsAreTheSame : Bool)
    (currentTransformNode : Option vtkMRMLNode) : List vtkMRMLNode → List QAction
  | [] => []
  | transformNode :: rest =>
    if transformNode.HideFromEditors then
      transformNodeActions node allTransformsAreTheSame currentTransformNode rest
    else if some transformNode.ID = node.map (fun n => n.ID) then
      -- do not let apply transform to itself
      transformNodeActions node allTransformsAreTheSame currentTransformNode rest
    else
      let nodeAction : QAction :=
        { QAction.new with data := some transformNode.ID, checkable := true, visible := true }
      let nodeAction :=
        if allTransformsAreTheSame && some transformNode.ID == currentTransformNode.map (fun t => t.ID) then
          { nodeAction with
            checked := allTransformsAreTheSame
              && some transformNode.ID == currentTransformNode.map (fun t => t.ID) }
        else nodeAction
      nodeAction :: transformNodeActions node allTransformsAreTheSame currentTransformNode rest

/-- The method `showTransformContextMenuActionsForItem` (source lines 299-390): the state of
the actions afterwards. -/
def showTransformContextMenuActionsForItem (h : qSlicerSubjectHierarchyPluginHandler)
    (d : qSlicerSubjectHierarchyTransformPluginPrivate) (itemID : vtkIdType) :
    qSlicerSubjectHierarchyTransformPluginPrivate :=
  match h.subjectHierarchyNode with
  | none => d
  | some shNode =>
    match h.mrmlScene with
    | none => d
    | some scene =>
      let node := vtkMRMLTransformableNode.SafeDownCast (shNode.GetItemDataNode h.Scene itemID)
      let applied := appliedTransformToItem h itemID
      let currentTransformNode := applied.1
      let allTransformsAreTheSame := applied.2
      let transformNodes := scene.GetNodesByClass_vtkMRMLTransformNode
      let interaction : QAction :=
        if allTransformsAreTheSame && currentTransformNode.isSome then
          let interactionVisible :=
            match currentTransformNode.bind (fun t => t.DisplayNode) with
            | some displayNode => displayNode.EditorVisibility
            | none => false
          { d.TransformInteractionInViewAction with
            visible := true, enabled := true, checked := interactionVisible }
        else
          { d.TransformInteractionInViewAction with
            visible := true, enabled := false, checked := false }
      { d with
        TransformInteractionInViewAction := interaction
        TransformEditPropertiesAction :=
          { d.TransformEditPropertiesAction with
            visible := true, enabled := allTransformsAreTheSame && currentTransformNode.isSome }
        TransformHardenAction :=
          { d.TransformHardenAction with
            visible := true, enabled := !(allTransformsAreTheSame && currentTransformNode.isNone) }
        NoTransformAction :=
          { d.NoTransformAction with
            visible := true, checked := allTransformsAreTheSame && currentTransformNode.isNone }
        TransformActionGroup :=
          transformNodeActions node allTransformsAreTheSame currentTransformNode transformNodes }

/-! ## The plugin: slots -/

/-- The slot `onTransformActionSelected` (source lines 417-428), `action` being the sender:
the transform node ID stored in the action is applied to every current item. -/
def onTransformActionSelected (h : qSlicerSubjectHierarchyPluginHandler) (action : QAction) :
    qSlicerSubjectHierarchyPluginHandler :=
  let selectedTransformNodeID := action.data
  h.currentItems.foldl (fun h itemID => applyTransformToItem h itemID selectedTransformNodeID) h

/-- The slot `onTransformInteractionInViewToggled` (source lines 481-496). -/
def onTransformInteractionInViewToggled (h : qSlicerSubjectHierarchyPluginHandler)
    (show_ : Bool) : qSlicerSubjectHierarchyPluginHandler :=
  match firstAppliedTransformToSelectedItems h with
  | none => h
  | some transformNode =>
    let scene := h.Scene.CreateDefaultDisplayNodes transformNode.ID
    match (scene.GetNodeByID transformNode.ID).bind (fun t => t.DisplayNode) with
    | none => { h with Scene := scene }
    | some _ => { h with Scene := scene.SetEditorVisibility transformNode.ID show_ }

/-- The slot `onCreateNewTransform` (source lines 499-522). -/
def onCreateNewTransform (h : qSlicerSubjectHierarchyPluginHandler) :
    qSlicerSubjectHierarchyPluginHandler :=
  match h.mrmlScene with
  | none => h
  | some scene =>
    match vtkMRMLTransformNode.SafeDownCast scene.AddNewNodeByClass_vtkMRMLTransformNode.1 with
    | none => h
    | some newTransformNode =>
      let h1 := { h with Scene := scene.AddNewNodeByClass_vtkMRMLTransformNode.2 }
      h1.currentItems.foldl (fun h itemID => applyTransformToItem h itemID (some newTransformNode.ID)) h1

/-! ## Vocabulary of the properties -/

/-- The transformable data node of an item: its data node when that node exists and is
transformable. -/
def transformableDataNode (shNode : vtkMRMLSubjectHierarchyNode) (scene : vtkMRMLScene)
    (itemID : vtkIdType) : Option vtkMRMLNode :=
  vtkMRMLTransformableNode.SafeDownCast (shNode.GetItemDataNode scene itemID)

/-- The items of a subtree: the item followed by its recursive descendants. -/
def subtreeItems (shNode : vtkMRMLSubjectHierarchyNode) (itemID : vtkIdType) : List vtkIdType :=
  itemID :: shNode.GetItemChildren itemID true

/-- The transformable data nodes of the given items, in item order. -/
def transformableNodesOfItems (shNode : vtkMRMLSubjectHierarchyNode) (scene : vtkMRMLScene)
    (itemIDs : List vtkIdType) : List vtkMRMLNode :=
  itemIDs.filterMap (transformableDataNode shNode scene)

/-- The transformable data nodes of the item and of its recursive descendants. -/
def subtreeTransformableNodes (shNode : vtkMRMLSubjectHierarchyNode) (scene : vtkMRMLScene)
    (itemID : vtkIdType) : List vtkMRMLNode :=
  transformableNodesOfItems shNode scene (subtreeItems shNode itemID)

/-- The transformable data nodes of the item and of its recursive descendants, as the
handler sees them; there is none without subject hierarchy. -/
def subtreeNodes (h : qSlicerSubjectHierarchyPluginHandler) (itemID : vtkIdType) :
    List vtkMRMLNode :=
  match h.subjectHierarchyNode with
  | none => []
  | some shNode => subtreeTransformableNodes shNode h.Scene itemID

/-- The parent transform nodes that are applied (not null) on the transformable data nodes
in the subtrees of the current items, in scan order: current items in order, every item
before its descendants. -/
def appliedTransformsOfSelection (h : qSlicerSubjectHierarchyPluginHandler) : List vtkMRMLNode :=
  match h.subjectHierarchyNode with
  | none => []
  | some shNode =>
    (transformableNodesOfItems shNode h.Scene (h.currentItems.flatMap (subtreeItems shNode))).filterMap
      h.Scene.GetParentTransformNode

/-- The node with the parent-transform ID replaced. -/
def withTransformNodeID (transformNodeID : Option NodeID) (n : vtkMRMLNode) : vtkMRMLNode :=
  { n with TransformNodeID := transformNodeID }

/-! ## Example scenes -/

/-- A transform node with the given ID, no parent transform, no display node. -/
def exampleTransform (id : NodeID) : vtkMRMLNode :=
  { ID := id, nodeClass := NodeClass.vtkMRMLTransformNode, HideFromEditors := false,
    TransformNodeID := none, DisplayNode := none }

/-- A transformable node (say a model) with the given ID and parent-transform ID. -/
def exampleModel (id : NodeID) (parent : Option NodeID) : vtkMRMLNode :=
  { ID := id, nodeClass := NodeClass.vtkMRMLTransformableNode, HideFromEditors := false,
    TransformNodeID := parent, DisplayNode := none }

/-- A node that is not transformable. -/
def exampleTable (id : NodeID) : vtkMRMLNode :=
  { ID := id, nodeClass := NodeClass.vtkMRMLNode, HideFromEditors := false,
    TransformNodeID := none, DisplayNode := none }

/-- Scene with the transforms 10 and 13, the models 11 (under transform 13) and 14 (no
transform) and the table 12. -/
def exampleScene : vtkMRMLScene :=
  { Nodes := [exampleTransform 10, exampleModel 11 (some 13), exampleTable 12,
              exampleTransform 13, exampleModel 14 none]
    NodeCreationSucceeds := true }

/-- Hierarchy: scene item 0 with the folder 1 (children: item 2 for model 11, item 3 for
transform 10), item 4 for table 12, item 5 for model 14 and item 6 for transform 13. -/
def exampleHierarchy : vtkMRMLSubjectHierarchyNode :=
  { SceneItem := vtkSubjectHierarchyItem.mk 0 none
      [vtkSubjectHierarchyItem.mk 1 none
        [vtkSubjectHierarchyItem.mk 2 (some 11) [], vtkSubjectHierarchyItem.mk 3 (some 10) []],
       vtkSubjectHierarchyItem.mk 4 (some 12) [],
       vtkSubjectHierarchyItem.mk 5 (some 14) [],
       vtkSubjectHierarchyItem.mk 6 (some 13) []] }

/-- Handler with the example scene and hierarchy; the folder 1 is the current item. -/
def exampleHandler : qSlicerSubjectHierarchyPluginHandler :=
  { Scene := exampleScene, hasScene := true, SubjectHierarchy := some exampleHierarchy,
    CurrentItems := [1] }

/-! ## Lemmas on the host model -/

theorem GetNodeByID_ID {scene : vtkMRMLScene} {i : NodeID} {n : vtkMRMLNode}
    (hn : scene.GetNodeByID i = some n) : n.ID = i := by
  have := List.find?_some hn
  simpa using this

theorem GetNodeByID_mapNodes (scene : vtkMRMLScene) (f : vtkMRMLNode → vtkMRMLNode)
    (hf : ∀ n, (f n).ID = n.ID) (i : NodeID) :
    (scene.mapNodes f).GetNodeByID i = (scene.GetNodeByID i).map f := by
  unfold vtkMRMLScene.GetNodeByID vtkMRMLScene.mapNodes
  simp only [List.find?_map]
  have : ((fun n : vtkMRMLNode => n.ID == i) ∘ f) = (fun n : vtkMRMLNode => n.ID == i) := by
    funext n
    simp [hf n]
  rw [this]

theorem mapNodes_mapNodes (scene : vtkMRMLScene) (f g : vtkMRMLNode → vtkMRMLNode) :
    (scene.mapNodes f).mapNodes g = scene.mapNodes (g ∘ f) := by
  simp [vtkMRMLScene.mapNodes]

theorem mapNodes_congr (scene : vtkMRMLScene) (f g : vtkMRMLNode → vtkMRMLNode)
    (hfg : ∀ n, f n = g n) : scene.mapNodes f = scene.mapNodes g := by
  have : f = g := funext hfg
  rw [this]

theorem mapNodes_id (scene : vtkMRMLScene) (f : vtkMRMLNode → vtkMRMLNode)
    (hf : ∀ n, f n = n) : scene.mapNodes f = scene := by
  have : f = id := funext hf
  subst this
  simp [vtkMRMLScene.mapNodes]

/-- A change of the node objects that keeps IDs and classes changes the transformable data
node of an item accordingly. -/
theorem transformableDataNode_mapNodes (shNode : vtkMRMLSubjectHierarchyNode)
    (scene : vtkMRMLScene) (f : vtkMRMLNode → vtkMRMLNode)
    (hID : ∀ n, (f n).ID = n.ID) (hClass : ∀ n, (f n).nodeClass = n.nodeClass)
    (itemID : vtkIdType) :
    transformableDataNode shNode (scene.mapNodes f) itemID
      = (transformableDataNode shNode scene itemID).map f := by
  unfold transformableDataNode vtkMRMLSubjectHierarchyNode.GetItemDataNode
    vtkMRMLTransformableNode.SafeDownCast
  cases hd : (shNode.SceneItem.FindItemByID itemID).bind (fun item => item.DataNode) with
  | none => simp
  | some j =>
    simp only [Option.some_bind, GetNodeByID_mapNodes scene f hID]
    cases scene.GetNodeByID j with
    | none => simp
    | some n =>
      by_cases hc : n.nodeClass = NodeClass.vtkMRMLNode <;> simp [Option.filter, hClass, hc]

/-! ## Propagation of a transform assignment (`applyTransformToItem`) -/

/-- IDs of the transformable data nodes of the given items. -/
theorem transformableNodesOfItems_mapNodes (shNode : vtkMRMLSubjectHierarchyNode)
    (scene : vtkMRMLScene) (f : vtkMRMLNode → vtkMRMLNode)
    (hID : ∀ n, (f n).ID = n.ID) (hClass : ∀ n, (f n).nodeClass = n.nodeClass)
    (itemIDs : List vtkIdType) :
    transformableNodesOfItems shNode (scene.mapNodes f) itemIDs
      = (transformableNodesOfItems shNode scene itemIDs).map f := by
  induction itemIDs with
  | nil => rfl
  | cons it rest ih =>
    unfold transformableNodesOfItems at ih ⊢
    rw [List.filterMap_cons, List.filterMap_cons,
      transformableDataNode_mapNodes shNode scene f hID hClass it]
    cases transformableDataNode shNode scene it with
    | none => simpa using ih
    | some n => simpa using ih

theorem transformableNodesOfItems_IDs_mapNodes (shNode : vtkMRMLSubjectHierarchyNode)
    (scene : vtkMRMLScene) (f : vtkMRMLNode → vtkMRMLNode)
    (hID : ∀ n, (f n).ID = n.ID) (hClass : ∀ n, (f n).nodeClass = n.nodeClass)
    (itemIDs : List vtkIdType) :
    (transformableNodesOfItems shNode (scene.mapNodes f) itemIDs).map (fun n => n.ID)
      = (transformableNodesOfItems shNode scene itemIDs).map (fun n => n.ID) := by
  rw [transformableNodesOfItems_mapNodes shNode scene f hID hClass, List.map_map]
  apply List.map_congr_left
  intro n _
  exact hID n

/-- The loop of `applyTransformToItem` sets the transform node ID on exactly the nodes whose
ID is the ID of a transformable data node of one of the listed items. -/
theorem applyLoop_eq (shNode : vtkMRMLSubjectHierarchyNode) (T : Option NodeID)
    (itemIDs : List vtkIdType) (scene : vtkMRMLScene) :
    itemIDs.foldl (fun scene itemIDToTransform =>
        match vtkMRMLTransformableNode.SafeDownCast (shNode.GetItemDataNode scene itemIDToTransform) with
        | none => scene
        | some node => scene.SetAndObserveTransformNodeID node.ID T) scene
      = scene.mapNodes (fun n =>
          if n.ID ∈ (transformableNodesOfItems shNode scene itemIDs).map (fun m => m.ID)
          then withTransformNodeID T n else n) := by
  induction itemIDs generalizing scene with
  | nil =>
    rw [List.foldl_nil]
    exact (mapNodes_id scene _ (fun n => by simp [transformableNodesOfItems])).symm
  | cons it rest ih =>
    rw [List.foldl_cons]
    have hfold : vtkMRMLTransformableNode.SafeDownCast (shNode.GetItemDataNode scene it)
        = transformableDataNode shNode scene it := rfl
    rw [hfold]
    cases hit : transformableDataNode shNode scene it with
    | none =>
      simp only []
      rw [ih scene]
      apply mapNodes_congr
      intro n
      simp only [transformableNodesOfItems, List.filterMap_cons_none hit]
    | some node =>
      simp only []
      rw [ih]
      unfold vtkMRMLScene.SetAndObserveTransformNodeID
      rw [transformableNodesOfItems_IDs_mapNodes shNode scene _
        (fun n => by split <;> rfl) (fun n => by split <;> rfl), mapNodes_mapNodes]
      apply mapNodes_congr
      intro n
      simp only [Function.comp, transformableNodesOfItems, List.filterMap_cons_some hit,
        List.map_cons, List.mem_cons]
      by_cases h1 : n.ID = node.ID
      · simp [h1, withTransformNodeID]
      · rw [if_neg h1]
        simp only [h1, false_or]

/-- Closed form of `applyTransformToItem`: only node objects change, and a node object
changes exactly when its ID is the ID of a transformable data node of the subtree. -/
theorem applyTransformToItem_eq (h : qSlicerSubjectHierarchyPluginHandler) (itemID : vtkIdType)
    (T : Option NodeID) :
    applyTransformToItem h itemID T
      = { h with Scene := h.Scene.mapNodes (fun n =>
            if n.ID ∈ (subtreeNodes h itemID).map (fun m => m.ID)
            then withTransformNodeID T n else n) } := by
  unfold applyTransformToItem subtreeNodes
  cases hsh : h.subjectHierarchyNode with
  | none =>
    simp only []
    rw [mapNodes_id h.Scene _ (fun n => by simp)]
  | some shNode =>
    simp only []
    rw [applyLoop_eq]
    congr 1
    apply mapNodes_congr
    intro n
    have hmem : n.ID ∈ (transformableNodesOfItems shNode h.Scene
          (shNode.GetItemChildren itemID true ++ [itemID])).map (fun m => m.ID)
        ↔ n.ID ∈ (subtreeTransformableNodes shNode h.Scene itemID).map (fun m => m.ID) := by
      simp only [subtreeTransformableNodes, subtreeItems, transformableNodesOfItems,
        List.mem_map, List.mem_filterMap, List.mem_append, List.mem_cons, List.mem_singleton,
        List.not_mem_nil, or_false]
      constructor
      · rintro ⟨m, ⟨a, ha, hm⟩, hmn⟩
        exact ⟨m, ⟨a, ha.symm, hm⟩, hmn⟩
      · rintro ⟨m, ⟨a, ha, hm⟩, hmn⟩
        exact ⟨m, ⟨a, ha.symm, hm⟩, hmn⟩
    by_cases hn : n.ID ∈ (subtreeTransformableNodes shNode h.Scene itemID).map (fun m => m.ID)
    · rw [if_pos hn, if_pos (hmem.mpr hn)]
    · rw [if_neg hn, if_neg (fun hc => hn (hmem.mp hc))]

theorem withTransformNodeID_ID (T : Option NodeID) (n : vtkMRMLNode) :
    (withTransformNodeID T n).ID = n.ID := rfl

theorem withTransformNodeID_nodeClass (T : Option NodeID) (n : vtkMRMLNode) :
    (withTransformNodeID T n).nodeClass = n.nodeClass := rfl

theorem ite_withTransformNodeID_ID (c : vtkMRMLNode → Prop) [DecidablePred c] (T : Option NodeID)
    (n : vtkMRMLNode) : (if c n then withTransformNodeID T n else n).ID = n.ID := by
  split <;> rfl

theorem ite_withTransformNodeID_nodeClass (c : vtkMRMLNode → Prop) [DecidablePred c]
    (T : Option NodeID) (n : vtkMRMLNode) :
    (if c n then withTransformNodeID T n else n).nodeClass = n.nodeClass := by
  split <;> rfl

/-- C1. `applyTransformToItem(item, T)` propagates the assignment across exactly the
subtree: looking a node up by its ID afterwards gives the node it was before, with the
parent-transform ID replaced by `T` when the node is the transformable data node of the item
or of one of its recursive descendants, and unchanged otherwise (other nodes, and items whose
data node is absent or not transformable, are skipped). -/
theorem applyTransformToItem_propagates (h : qSlicerSubjectHierarchyPluginHandler)
    (itemID : vtkIdType) (T : Option NodeID) (i : NodeID) :
    (applyTransformToItem h itemID T).Scene.GetNodeByID i
      = (h.Scene.GetNodeByID i).map (fun n =>
          if i ∈ (subtreeNodes h itemID).map (fun m => m.ID)
          then withTransformNodeID T n else n) := by
  rw [applyTransformToItem_eq]
  simp only []
  rw [GetNodeByID_mapNodes _ _ (ite_withTransformNodeID_ID _ T)]
  cases hn : h.Scene.GetNodeByID i with
  | none => rfl
  | some n =>
    simp only [Option.map_some', GetNodeByID_ID hn]

/-! ## The common transform of a subtree (`appliedTransformToItem`) -/

/-- A parent transform node is a node of the scene, found under its own ID. -/
theorem GetParentTransformNode_some {scene : vtkMRMLScene} {a t : vtkMRMLNode}
    (ht : scene.GetParentTransformNode a = some t) : scene.GetNodeByID t.ID = some t := by
  unfold vtkMRMLScene.GetParentTransformNode vtkMRMLTransformNode.SafeDownCast at ht
  cases hj : a.TransformNodeID with
  | none => simp [hj] at ht
  | some j =>
    rw [hj, Option.some_bind] at ht
    cases hl : scene.GetNodeByID j with
    | none => simp [hl] at ht
    | some m =>
      rw [hl] at ht
      have hm : m = t := by
        by_cases hc : m.nodeClass = NodeClass.vtkMRMLTransformNode
        · simpa [Option.filter, hc] using ht
        · simp [Option.filter, hc] at ht
      subst hm
      rw [GetNodeByID_ID hl]
      exact hl

/-- Two parent transform pointers are equal exactly when they are the same node. -/
theorem GetParentTransformNode_ID_eq_iff (scene : vtkMRMLScene) (a b : vtkMRMLNode) :
    (scene.GetParentTransformNode a).map (fun t => t.ID)
        = (scene.GetParentTransformNode b).map (fun t => t.ID)
      ↔ scene.GetParentTransformNode a = scene.GetParentTransformNode b := by
  constructor
  · intro hID
    cases ha : scene.GetParentTransformNode a with
    | none =>
      cases hb : scene.GetParentTransformNode b with
      | none => rfl
      | some t2 => simp [ha, hb] at hID
    | some t1 =>
      cases hb : scene.GetParentTransformNode b with
      | none => simp [ha, hb] at hID
      | some t2 =>
        have h12 : t1.ID = t2.ID := by simpa [ha, hb] using hID
        have h1 := GetParentTransformNode_some ha
        have h2 := GetParentTransformNode_some hb
        rw [h12, h2] at h1
        exact h1.symm
  · intro h
    rw [h]

/-- The loop of `appliedTransformToItem` once a first transformable node has been seen:
the common node is kept, and the flag tells whether every remaining transformable node has
that parent transform. -/
theorem appliedLoop_found (shNode : vtkMRMLSubjectHierarchyNode) (scene : vtkMRMLScene)
    (itemIDs : List vtkIdType) (c : Option vtkMRMLNode) :
    (appliedTransformToItemLoop shNode scene itemIDs true c).1 = c
      ∧ ((appliedTransformToItemLoop shNode scene itemIDs true c).2 = true
          ↔ ∀ n ∈ transformableNodesOfItems shNode scene itemIDs,
              (scene.GetParentTransformNode n).map (fun t => t.ID) = c.map (fun t => t.ID)) := by
  induction itemIDs with
  | nil => simp [appliedTransformToItemLoop, transformableNodesOfItems]
  | cons it rest ih =>
    have hfold : vtkMRMLTransformableNode.SafeDownCast (shNode.GetItemDataNode scene it)
        = transformableDataNode shNode scene it := rfl
    unfold appliedTransformToItemLoop
    rw [hfold]
    cases hit : transformableDataNode shNode scene it with
    | none =>
      simp only [transformableNodesOfItems, List.filterMap_cons_none hit]
      exact ih
    | some node =>
      simp only [transformableNodesOfItems, List.filterMap_cons_some hit, List.mem_cons,
        forall_eq_or_imp, Bool.not_true, Bool.false_eq_true, if_false]
      by_cases hne : (scene.GetParentTransformNode node).map (fun t => t.ID)
          = c.map (fun t => t.ID)
      · simp only [hne, bne_self_eq_false, Bool.false_eq_true, if_false, true_and]
        exact ih
      · have hb : ((scene.GetParentTransformNode node).map (fun t => t.ID)
            != c.map (fun t => t.ID)) = true := by simpa using hne
        simp only [hb, if_true, hne, false_and, Bool.false_eq_true]
        simp

/-- The loop of `appliedTransformToItem` from its start: the returned node is the parent
transform of the first transformable node (null if there is none), and the flag tells
whether all transformable nodes have the same parent transform. -/
theorem appliedLoop_start (shNode : vtkMRMLSubjectHierarchyNode) (scene : vtkMRMLScene)
    (itemIDs : List vtkIdType) :
    (appliedTransformToItemLoop shNode scene itemIDs false none).1
        = (transformableNodesOfItems shNode scene itemIDs).head?.bind scene.GetParentTransformNode
      ∧ ((appliedTransformToItemLoop shNode scene itemIDs false none).2 = true
          ↔ ∀ a ∈ transformableNodesOfItems shNode scene itemIDs,
            ∀ b ∈ transformableNodesOfItems shNode scene itemIDs,
              scene.GetParentTransformNode a = scene.GetParentTransformNode b) := by
  induction itemIDs with
  | nil => simp [appliedTransformToItemLoop, transformableNodesOfItems]
  | cons it rest ih =>
    have hfold : vtkMRMLTransformableNode.SafeDownCast (shNode.GetItemDataNode scene it)
        = transformableDataNode shNode scene it := rfl
    unfold appliedTransformToItemLoop
    rw [hfold]
    cases hit : transformableDataNode shNode scene it with
    | none =>
      simp only [transformableNodesOfItems, List.filterMap_cons_none hit]
      exact ih
    | some node =>
      have hf := appliedLoop_found shNode scene rest (scene.GetParentTransformNode node)
      simp only [transformableNodesOfItems, List.filterMap_cons_some hit, List.mem_cons,
        forall_eq_or_imp, Bool.not_false, if_true, List.head?_cons, Option.some_bind]
      refine ⟨hf.1, ?_⟩
      rw [hf.2]
      simp only [GetParentTransformNode_ID_eq_iff, transformableNodesOfItems]
      constructor
      · intro hall
        refine ⟨⟨trivial, fun b hb => (hall b hb).symm⟩, fun a ha => ⟨hall a ha, fun b hb => ?_⟩⟩
        rw [hall a ha, hall b hb]
      · intro hall n hn
        exact (hall.1.2 n hn).symm

/-- With a subject hierarchy node, `appliedTransformToItem` is its loop over the subtree. -/
theorem appliedTransformToItem_eq (h : qSlicerSubjectHierarchyPluginHandler)
    (shNode : vtkMRMLSubjectHierarchyNode) (hsh : h.subjectHierarchyNode = some shNode)
    (itemID : vtkIdType) :
    appliedTransformToItem h itemID
      = appliedTransformToItemLoop shNode h.Scene (subtreeItems shNode itemID) false none := by
  unfold appliedTransformToItem
  rw [hsh]
  rfl

/-- Harden condition on a list of parent transforms: "not (all the same and the first is
null)" says that some parent transform is not null. -/
theorem not_allSame_null_iff {α β : Type} (g : α → Option β) (L : List α) (same : Bool)
    (hs : same = true ↔ ∀ a ∈ L, ∀ b ∈ L, g a = g b) :
    (!(same && (L.head?.bind g).isNone)) = true ↔ ∃ n ∈ L, g n ≠ none := by
  cases L with
  | nil =>
    have : same = true := hs.mpr (fun a ha => by simp at ha)
    simp [this]
  | cons a l =>
    simp only [List.head?_cons, Option.some_bind, Bool.not_eq_true', Bool.and_eq_false_imp,
      Option.isNone_eq_false_iff, Option.isSome_iff_ne_none]
    constructor
    · intro himp
      by_cases hga : g a = none
      · have hns : ¬ same = true := fun hsame => himp hsame hga
        rw [hs] at hns
        push_neg at hns
        obtain ⟨x, hx, y, hy, hxy⟩ := hns
        by_cases hgx : g x = none
        · exact ⟨y, hy, fun hgy => hxy (hgx.trans hgy.symm)⟩
        · exact ⟨x, hx, hgx⟩
      · exact ⟨a, List.mem_cons_self a l, hga⟩
    · rintro ⟨n, hn, hgn⟩ hsame hga
      exact hgn (((hs.mp hsame) n hn a (List.mem_cons_self a l)).trans hga)

/-- Edit condition on a list of parent transforms: "all the same and the first is not
null" says that the list is not empty and all are one and the same non-null transform. -/
theorem allSame_notNull_iff {α β : Type} (g : α → Option β) (L : List α) (same : Bool)
    (hs : same = true ↔ ∀ a ∈ L, ∀ b ∈ L, g a = g b) :
    (same && (L.head?.bind g).isSome) = true ↔ L ≠ [] ∧ ∃ t, ∀ n ∈ L, g n = some t := by
  cases L with
  | nil => simp
  | cons a l =>
    simp only [List.head?_cons, Option.some_bind, Bool.and_eq_true, ne_eq, reduceCtorEq,
      not_false_eq_true, true_and]
    constructor
    · rintro ⟨hsame, hga⟩
      obtain ⟨t, ht⟩ := Option.isSome_iff_exists.mp hga
      exact ⟨t, fun n hn => ((hs.mp hsame) n hn a (List.mem_cons_self a l)).trans ht⟩
    · rintro ⟨t, ht⟩
      refine ⟨hs.mpr (fun x hx y hy => (ht x hx).trans (ht y hy).symm), ?_⟩
      rw [ht a (List.mem_cons_self a l)]
      rfl

/-- C2. `appliedTransformToItem(item, commonToAllChildren)`: with a subject hierarchy node,
`commonToAllChildren` is set to true if and only if all transformable data nodes among the
item and its recursive descendants have the same parent transform node (null counts as a
value, and a subtree without transformable node is common); otherwise it is false. -/
theorem appliedTransformToItem_commonToAllChildren (h : qSlicerSubjectHierarchyPluginHandler)
    (shNode : vtkMRMLSubjectHierarchyNode) (hsh : h.subjectHierarchyNode = some shNode)
    (itemID : vtkIdType) :
    (appliedTransformToItem h itemID).2 = true
      ↔ ∀ a ∈ subtreeTransformableNodes shNode h.Scene itemID,
        ∀ b ∈ subtreeTransformableNodes shNode h.Scene itemID,
          h.Scene.GetParentTransformNode a = h.Scene.GetParentTransformNode b := by
  rw [appliedTransformToItem_eq h shNode hsh]
  exact (appliedLoop_start shNode h.Scene (subtreeItems shNode itemID)).2

/-- The action states set at the end of `showTransformContextMenuActionsForItem` when the
handler has a subject hierarchy node and a scene. -/
theorem showTransformContextMenuActionsForItem_enabled
    (h : qSlicerSubjectHierarchyPluginHandler)
    (d : qSlicerSubjectHierarchyTransformPluginPrivate)
    (shNode : vtkMRMLSubjectHierarchyNode) (scene : vtkMRMLScene)
    (hsh : h.subjectHierarchyNode = some shNode) (hscene : h.mrmlScene = some scene)
    (itemID : vtkIdType) :
    let applied := appliedTransformToItem h itemID
    let d1 := showTransformContextMenuActionsForItem h d itemID
    d1.TransformHardenAction.enabled = !(applied.2 && applied.1.isNone)
      ∧ d1.TransformEditPropertiesAction.enabled = (applied.2 && applied.1.isSome)
      ∧ d1.TransformInteractionInViewAction.enabled = (applied.2 && applied.1.isSome)
      ∧ ((applied.2 && applied.1.isSome) = false
          → d1.TransformInteractionInViewAction.checked = false) := by
  intro applied d1
  have hd1 : d1 = showTransformContextMenuActionsForItem h d itemID := rfl
  unfold showTransformContextMenuActionsForItem at hd1
  rw [hsh, hscene] at hd1
  simp only [] at hd1
  refine ⟨by rw [hd1], by rw [hd1], ?_, ?_⟩
  · rw [hd1]
    simp only []
    split <;> rename_i hc
    · simpa using hc
    · simp only [Bool.not_eq_true] at hc
      exact hc.symm
  · intro hfalse
    rw [hd1]
    simp only []
    rw [if_neg (by simpa using hfalse)]

/-- The node returned by `appliedTransformToItem` and its flag, in terms of the
transformable data nodes of the subtree. -/
theorem appliedTransformToItem_subtree (h : qSlicerSubjectHierarchyPluginHandler)
    (shNode : vtkMRMLSubjectHierarchyNode) (hsh : h.subjectHierarchyNode = some shNode)
    (itemID : vtkIdType) :
    (appliedTransformToItem h itemID).1
        = (subtreeTransformableNodes shNode h.Scene itemID).head?.bind
            h.Scene.GetParentTransformNode
      ∧ ((appliedTransformToItem h itemID).2 = true
          ↔ ∀ a ∈ subtreeTransformableNodes shNode h.Scene itemID,
            ∀ b ∈ subtreeTransformableNodes shNode h.Scene itemID,
              h.Scene.GetParentTransformNode a = h.Scene.GetParentTransformNode b) := by
  rw [appliedTransformToItem_eq h shNode hsh]
  exact appliedLoop_start shNode h.Scene (subtreeItems shNode itemID)

/-- C3. After `showTransformContextMenuActionsForItem(item)` (handler with subject
hierarchy node and scene), the Harden action is enabled if and only if at least one
transformable data node among the item and its recursive descendants has a non-null parent
transform; in particular it is enabled whenever the parent transforms in the subtree are not
all the same, and disabled when the subtree has no transformable node. -/
theorem showTransformContextMenuActionsForItem_harden
    (h : qSlicerSubjectHierarchyPluginHandler)
    (d : qSlicerSubjectHierarchyTransformPluginPrivate)
    (shNode : vtkMRMLSubjectHierarchyNode) (scene : vtkMRMLScene)
    (hsh : h.subjectHierarchyNode = some shNode) (hscene : h.mrmlScene = some scene)
    (itemID : vtkIdType) :
    ((showTransformContextMenuActionsForItem h d itemID).TransformHardenAction.enabled = true
        ↔ ∃ n ∈ subtreeTransformableNodes shNode h.Scene itemID,
            h.Scene.GetParentTransformNode n ≠ none)
      ∧ (¬ (∀ a ∈ subtreeTransformableNodes shNode h.Scene itemID,
            ∀ b ∈ subtreeTransformableNodes shNode h.Scene itemID,
              h.Scene.GetParentTransformNode a = h.Scene.GetParentTransformNode b)
          → (showTransformContextMenuActionsForItem h d itemID).TransformHardenAction.enabled = true)
      ∧ (subtreeTransformableNodes shNode h.Scene itemID = []
          → (showTransformContextMenuActionsForItem h d itemID).TransformHardenAction.enabled = false) := by
  have hen := (showTransformContextMenuActionsForItem_enabled h d shNode scene hsh hscene itemID).1
  have hap := appliedTransformToItem_subtree h shNode hsh itemID
  have hiff := not_allSame_null_iff h.Scene.GetParentTransformNode
    (subtreeTransformableNodes shNode h.Scene itemID) (appliedTransformToItem h itemID).2 hap.2
  rw [← hap.1, ← hen] at hiff
  refine ⟨hiff, fun hdiff => ?_, fun hempty => ?_⟩
  · rw [hen]
    have hns : (appliedTransformToItem h itemID).2 = false := by
      rw [← Bool.not_eq_true]
      exact fun hc => hdiff (hap.2.mp hc)
    rw [hns]
    rfl
  · rw [← Bool.not_eq_true]
    intro hc
    obtain ⟨n, hn, _⟩ := hiff.mp hc
    rw [hempty] at hn
    exact List.not_mem_nil n hn

/-- C4. After `showTransformContextMenuActionsForItem(item)` (handler with subject
hierarchy node and scene), the Edit-properties action, and likewise the Interaction action,
is enabled if and only if the subtree of the item contains at least one transformable data
node and every transformable data node in it has one and the same non-null parent
transform; otherwise both are disabled and Interaction is unchecked. -/
theorem showTransformContextMenuActionsForItem_edit
    (h : qSlicerSubjectHierarchyPluginHandler)
    (d : qSlicerSubjectHierarchyTransformPluginPrivate)
    (shNode : vtkMRMLSubjectHierarchyNode) (scene : vtkMRMLScene)
    (hsh : h.subjectHierarchyNode = some shNode) (hscene : h.mrmlScene = some scene)
    (itemID : vtkIdType) :
    ((showTransformContextMenuActionsForItem h d itemID).TransformEditPropertiesAction.enabled = true
        ↔ (subtreeTransformableNodes shNode h.Scene itemID ≠ []
            ∧ ∃ t, ∀ n ∈ subtreeTransformableNodes shNode h.Scene itemID,
                h.Scene.GetParentTransformNode n = some t))
      ∧ ((showTransformContextMenuActionsForItem h d itemID).TransformInteractionInViewAction.enabled = true
        ↔ (subtreeTransformableNodes shNode h.Scene itemID ≠ []
            ∧ ∃ t, ∀ n ∈ subtreeTransformableNodes shNode h.Scene itemID,
                h.Scene.GetParentTransformNode n = some t))
      ∧ (¬ (subtreeTransformableNodes shNode h.Scene itemID ≠ []
            ∧ ∃ t, ∀ n ∈ subtreeTransformableNodes shNode h.Scene itemID,
                h.Scene.GetParentTransformNode n = some t)
          → (showTransformContextMenuActionsForItem h d itemID).TransformEditPropertiesAction.enabled = false
            ∧ (showTransformContextMenuActionsForItem h d itemID).TransformInteractionInViewAction.enabled = false
            ∧ (showTransformContextMenuActionsForItem h d itemID).TransformInteractionInViewAction.checked = false) := by
  obtain ⟨_, hedit, hinter, hchecked⟩ :=
    showTransformContextMenuActionsForItem_enabled h d shNode scene hsh hscene itemID
  have hap := appliedTransformToItem_subtree h shNode hsh itemID
  have hiff := allSame_notNull_iff h.Scene.GetParentTransformNode
    (subtreeTransformableNodes shNode h.Scene itemID) (appliedTransformToItem h itemID).2 hap.2
  rw [← hap.1] at hiff
  refine ⟨by rw [hedit]; exact hiff, by rw [hinter]; exact hiff, ?_⟩
  intro hnot
  have hfalse : ((appliedTransformToItem h itemID).2 && (appliedTransformToItem h itemID).1.isSome)
      = false := by
    rw [← Bool.not_eq_true]
    exact fun hc => hnot (hiff.mp hc)
  exact ⟨by rw [hedit]; exact hfalse, by rw [hinter]; exact hfalse, hchecked hfalse⟩

/-! ## Applying a transform to the current items -/

theorem subtreeNodes_mapNodes (h : qSlicerSubjectHierarchyPluginHandler)
    (f : vtkMRMLNode → vtkMRMLNode)
    (hID : ∀ n, (f n).ID = n.ID) (hClass : ∀ n, (f n).nodeClass = n.nodeClass)
    (itemID : vtkIdType) :
    subtreeNodes { h with Scene := h.Scene.mapNodes f } itemID = (subtreeNodes h itemID).map f := by
  unfold subtreeNodes qSlicerSubjectHierarchyPluginHandler.subjectHierarchyNode
  cases h.SubjectHierarchy with
  | none => rfl
  | some shNode =>
    exact transformableNodesOfItems_mapNodes shNode h.Scene f hID hClass _

theorem subtreeNodes_IDs_mapNodes (h : qSlicerSubjectHierarchyPluginHandler)
    (f : vtkMRMLNode → vtkMRMLNode)
    (hID : ∀ n, (f n).ID = n.ID) (hClass : ∀ n, (f n).nodeClass = n.nodeClass)
    (itemIDs : List vtkIdType) :
    (itemIDs.flatMap (subtreeNodes { h with Scene := h.Scene.mapNodes f })).map (fun n => n.ID)
      = (itemIDs.flatMap (subtreeNodes h)).map (fun n => n.ID) := by
  induction itemIDs with
  | nil => rfl
  | cons it rest ih =>
    simp only [List.flatMap_cons, List.map_append, ih,
      subtreeNodes_mapNodes h f hID hClass it, List.map_map]
    congr 1
    apply List.map_congr_left
    intro n _
    exact hID n

/-- Applying one transform node ID to a list of items, one after the other, sets it on
exactly the transformable data nodes of their subtrees. -/
theorem foldl_applyTransformToItem_eq (T : Option NodeID) (itemIDs : List vtkIdType)
    (h : qSlicerSubjectHierarchyPluginHandler) :
    itemIDs.foldl (fun h itemID => applyTransformToItem h itemID T) h
      = { h with Scene := h.Scene.mapNodes (fun n =>
            if n.ID ∈ (itemIDs.flatMap (subtreeNodes h)).map (fun m => m.ID)
            then withTransformNodeID T n else n) } := by
  induction itemIDs generalizing h with
  | nil =>
    rw [List.foldl_nil, mapNodes_id h.Scene _ (fun n => by simp)]
  | cons it rest ih =>
    rw [List.foldl_cons, ih, applyTransformToItem_eq]
    simp only []
    rw [subtreeNodes_IDs_mapNodes h _ (ite_withTransformNodeID_ID _ T)
      (ite_withTransformNodeID_nodeClass _ T), mapNodes_mapNodes]
    congr 1
    apply mapNodes_congr
    intro n
    simp only [Function.comp, List.flatMap_cons, List.map_append, List.mem_append]
    by_cases h1 : n.ID ∈ (subtreeNodes h it).map (fun m => m.ID)
    · simp [h1, withTransformNodeID]
    · rw [if_neg h1]
      simp only [h1, false_or]

theorem le_foldr_max (l : List Nat) (x : Nat) (hx : x ∈ l) : x ≤ l.foldr max 0 := by
  induction l with
  | nil => simp at hx
  | cons a l ih =>
    rw [List.foldr_cons]
    rcases List.mem_cons.mp hx with rfl | hx
    · exact Nat.le_max_left _ _
    · exact Nat.le_trans (ih hx) (Nat.le_max_right _ _)

/-- The generated ID is not the ID of a node of the scene. -/
theorem GenerateUniqueID_fresh (scene : vtkMRMLScene) :
    scene.GenerateUniqueID ∉ scene.Nodes.map (fun n => n.ID) := by
  intro hmem
  have := le_foldr_max _ _ hmem
  unfold vtkMRMLScene.GenerateUniqueID at this
  omega

theorem map_ID_mapNodes (scene : vtkMRMLScene) (f : vtkMRMLNode → vtkMRMLNode)
    (hID : ∀ n, (f n).ID = n.ID) :
    (scene.mapNodes f).Nodes.map (fun n => n.ID) = scene.Nodes.map (fun n => n.ID) := by
  simp only [vtkMRMLScene.mapNodes, List.map_map]
  exact List.map_congr_left (fun n _ => hID n)

theorem map_nodeClass_mapNodes (scene : vtkMRMLScene) (f : vtkMRMLNode → vtkMRMLNode)
    (hClass : ∀ n, (f n).nodeClass = n.nodeClass) :
    (scene.mapNodes f).Nodes.map (fun n => n.nodeClass)
      = scene.Nodes.map (fun n => n.nodeClass) := by
  simp only [vtkMRMLScene.mapNodes, List.map_map]
  exact List.map_congr_left (fun n _ => hClass n)

/-- With a scene that can create the node, `onCreateNewTransform` appends the new transform
node and applies its ID to every current item. -/
theorem onCreateNewTransform_eq (h : qSlicerSubjectHierarchyPluginHandler)
    (hscene : h.hasScene = true) (hcreate : h.Scene.NodeCreationSucceeds = true) :
    onCreateNewTransform h
      = h.currentItems.foldl
          (fun a itemID => applyTransformToItem a itemID (some h.Scene.GenerateUniqueID))
          { h with Scene := { h.Scene with Nodes := h.Scene.Nodes ++
              [{ ID := h.Scene.GenerateUniqueID, nodeClass := NodeClass.vtkMRMLTransformNode,
                 HideFromEditors := false, TransformNodeID := none, DisplayNode := none }] } } := by
  obtain ⟨⟨nodes, creation⟩, hasScene, sh, cur⟩ := h
  simp only [] at hscene hcreate
  subst hscene hcreate
  rfl

/-- C6. `onCreateNewTransform` creates and applies a new transform.  When the handler has a
scene and the scene can create the node, the scene afterwards has exactly one more node, a
transform node `N` with an ID no node had, and every transformable data node of every
current item and of all their recursive descendants has the ID of `N` as parent-transform
ID.  When the scene is missing or the node cannot be created, nothing changes. -/
theorem onCreateNewTransform_creates_and_applies (h : qSlicerSubjectHierarchyPluginHandler) :
    ((h.hasScene = true ∧ h.Scene.NodeCreationSucceeds = true) →
        (onCreateNewTransform h).Scene.Nodes.map (fun n => n.ID)
            = h.Scene.Nodes.map (fun n => n.ID) ++ [h.Scene.GenerateUniqueID]
          ∧ h.Scene.GenerateUniqueID ∉ h.Scene.Nodes.map (fun n => n.ID)
          ∧ (onCreateNewTransform h).Scene.Nodes.map (fun n => n.nodeClass)
            = h.Scene.Nodes.map (fun n => n.nodeClass) ++ [NodeClass.vtkMRMLTransformNode]
          ∧ ∀ itemID ∈ h.currentItems, ∀ n ∈ subtreeNodes (onCreateNewTransform h) itemID,
              n.TransformNodeID = some h.Scene.GenerateUniqueID)
      ∧ (¬ (h.hasScene = true ∧ h.Scene.NodeCreationSucceeds = true) →
          onCreateNewTransform h = h) := by
  constructor
  · rintro ⟨hscene, hcreate⟩
    have hrun := onCreateNewTransform_eq h hscene hcreate
    rw [hrun, foldl_applyTransformToItem_eq]
    refine ⟨?_, GenerateUniqueID_fresh h.Scene, ?_, ?_⟩
    · refine Eq.trans (map_ID_mapNodes _ _ (ite_withTransformNodeID_ID _ _)) ?_
      simp
    · refine Eq.trans (map_nodeClass_mapNodes _ _ (ite_withTransformNodeID_nodeClass _ _)) ?_
      simp
    · intro itemID hitem n hn
      rw [subtreeNodes_mapNodes _ _ (ite_withTransformNodeID_ID _ _)
        (ite_withTransformNodeID_nodeClass _ _)] at hn
      obtain ⟨m, hm, rfl⟩ := List.mem_map.mp hn
      simp only []
      rw [if_pos (List.mem_map.mpr ⟨m, List.mem_flatMap.mpr ⟨itemID, hitem, hm⟩, rfl⟩)]
      rfl
  · intro hnot
    unfold onCreateNewTransform qSlicerSubjectHierarchyPluginHandler.mrmlScene
    by_cases hscene : h.hasScene = true
    · have hcreate : h.Scene.NodeCreationSucceeds = false := by
        rw [← Bool.not_eq_true]
        exact fun hc => hnot ⟨hscene, hc⟩
      rw [hscene]
      simp only [if_true]
      unfold vtkMRMLScene.AddNewNodeByClass_vtkMRMLTransformNode
      rw [hcreate]
      rfl
    · rw [if_neg hscene]

/-! ## Interactive editing of the applied transform -/

theorem firstAppliedTransformInItems_eq (shNode : vtkMRMLSubjectHierarchyNode)
    (scene : vtkMRMLScene) (itemIDs : List vtkIdType) :
    firstAppliedTransformInItems shNode scene itemIDs
      = ((transformableNodesOfItems shNode scene itemIDs).filterMap
          scene.GetParentTransformNode).head? := by
  induction itemIDs with
  | nil => rfl
  | cons it rest ih =>
    have hfold : vtkMRMLTransformableNode.SafeDownCast (shNode.GetItemDataNode scene it)
        = transformableDataNode shNode scene it := rfl
    unfold firstAppliedTransformInItems
    rw [hfold]
    cases hit : transformableDataNode shNode scene it with
    | none =>
      simp only [transformableNodesOfItems, List.filterMap_cons_none hit]
      exact ih
    | some node =>
      simp only [transformableNodesOfItems, List.filterMap_cons_some hit]
      cases hgp : scene.GetParentTransformNode node with
      | none =>
        simp only [List.filterMap_cons_none hgp]
        exact ih
      | some t =>
        simp only [List.filterMap_cons_some hgp, List.head?_cons]

theorem transformableNodesOfItems_append (shNode : vtkMRMLSubjectHierarchyNode)
    (scene : vtkMRMLScene) (l1 l2 : List vtkIdType) :
    transformableNodesOfItems shNode scene (l1 ++ l2)
      = transformableNodesOfItems shNode scene l1 ++ transformableNodesOfItems shNode scene l2 := by
  simp [transformableNodesOfItems]

theorem firstAppliedTransformLoop_eq (shNode : vtkMRMLSubjectHierarchyNode)
    (scene : vtkMRMLScene) (itemIDs : List vtkIdType) :
    firstAppliedTransformLoop shNode scene itemIDs
      = ((transformableNodesOfItems shNode scene (itemIDs.flatMap (subtreeItems shNode))).filterMap
          scene.GetParentTransformNode).head? := by
  induction itemIDs with
  | nil => rfl
  | cons it rest ih =>
    unfold firstAppliedTransformLoop
    simp only []
    rw [firstAppliedTransformInItems_eq, List.flatMap_cons, transformableNodesOfItems_append,
      List.filterMap_append, List.head?_append]
    have hsub : it :: shNode.GetItemChildren it true = subtreeItems shNode it := rfl
    rw [hsub]
    cases hfirst : ((transformableNodesOfItems shNode scene (subtreeItems shNode it)).filterMap
        scene.GetParentTransformNode).head? with
    | none =>
      simp only [Option.none_or]
      exact ih
    | some t => rfl

/-- The transform found by `firstAppliedTransformToSelectedItems` is the first applied
transform of the selection in scan order. -/
theorem firstAppliedTransformToSelectedItems_eq (h : qSlicerSubjectHierarchyPluginHandler) :
    firstAppliedTransformToSelectedItems h = (appliedTransformsOfSelection h).head? := by
  unfold firstAppliedTransformToSelectedItems appliedTransformsOfSelection
  cases h.subjectHierarchyNode with
  | none => rfl
  | some shNode => exact firstAppliedTransformLoop_eq shNode h.Scene h.currentItems

/-- An applied transform of the selection is a node of the scene. -/
theorem appliedTransformsOfSelection_mem (h : qSlicerSubjectHierarchyPluginHandler)
    (T : vtkMRMLNode) (hT : T ∈ appliedTransformsOfSelection h) :
    h.Scene.GetNodeByID T.ID = some T := by
  unfold appliedTransformsOfSelection at hT
  cases hsh : h.subjectHierarchyNode with
  | none => simp [hsh] at hT
  | some shNode =>
    rw [hsh] at hT
    obtain ⟨a, _, ha⟩ := List.mem_filterMap.mp hT
    exact GetParentTransformNode_some ha

/-- The node with the editor visibility of its display node set. -/
theorem toggle_node (T : vtkMRMLNode) (show_ : Bool) (n : vtkMRMLNode) :
    ((fun n : vtkMRMLNode =>
        if n.ID = T.ID then
          { n with DisplayNode := n.DisplayNode.map (fun d => { d with EditorVisibility := show_ }) }
        else n) ∘
      (fun n : vtkMRMLNode =>
        if n.ID = T.ID then
          match n.DisplayNode with
          | some _ => n
          | none => { n with DisplayNode := some { EditorVisibility := false } }
        else n)) n
      = if n.ID = T.ID then { n with DisplayNode := some { EditorVisibility := show_ } } else n := by
  simp only [Function.comp]
  by_cases hn : n.ID = T.ID
  · simp only [hn, if_true]
    cases hd : n.DisplayNode with
    | none => simp [hn]
    | some d => simp [hn, hd]
  · simp only [hn, if_false]

/-- C7. `onTransformInteractionInViewToggled(show)`: when some transformable node in the
subtrees of the selected items has a non-null parent transform, the first such transform
`T` in scan order is a node of the scene and afterwards its display node has editor
visibility `show`, every other node being what it was (so no other transform's editor
visibility changes); when there is no such transform, nothing changes. -/
theorem onTransformInteractionInViewToggled_first (h : qSlicerSubjectHierarchyPluginHandler)
    (show_ : Bool) :
    match (appliedTransformsOfSelection h).head? with
    | some T =>
      h.Scene.GetNodeByID T.ID = some T
        ∧ ∀ i, (onTransformInteractionInViewToggled h show_).Scene.GetNodeByID i
            = (h.Scene.GetNodeByID i).map (fun n =>
                if n.ID = T.ID then { n with DisplayNode := some { EditorVisibility := show_ } }
                else n)
    | none => onTransformInteractionInViewToggled h show_ = h := by
  unfold onTransformInteractionInViewToggled
  rw [firstAppliedTransformToSelectedItems_eq]
  cases hfirst : (appliedTransformsOfSelection h).head? with
  | none => rfl
  | some T =>
    have hT := appliedTransformsOfSelection_mem h T (List.mem_of_mem_head? hfirst)
    refine ⟨hT, fun i => ?_⟩
    have hcreated : ((h.Scene.CreateDefaultDisplayNodes T.ID).GetNodeByID T.ID).bind
        (fun t => t.DisplayNode) ≠ none := by
      unfold vtkMRMLScene.CreateDefaultDisplayNodes
      rw [GetNodeByID_mapNodes _ _ (fun n => by split <;> [split <;> rfl; rfl]), hT]
      cases hd : T.DisplayNode <;> simp [hd]
    simp only []
    split
    · rename_i hnone
      exact absurd hnone hcreated
    · simp only []
      unfold vtkMRMLScene.SetEditorVisibility vtkMRMLScene.CreateDefaultDisplayNodes
      rw [mapNodes_mapNodes, mapNodes_congr _ _ _ (toggle_node T show_),
        GetNodeByID_mapNodes _ _ (fun n => by split <;> rfl)]

/-! ## Concrete runs -/

/-- The per-transform actions built by `showTransformContextMenuActionsForItem` (source
lines 336-361) carry, in scene order, the IDs of the transform nodes that are not hidden
from editors and are not the data node of the item the menu is shown for. -/
theorem transformNodeActions_data (node : Option vtkMRMLNode) (allTransformsAreTheSame : Bool)
    (currentTransformNode : Option vtkMRMLNode) (transformNodes : List vtkMRMLNode) :
    (transformNodeActions node allTransformsAreTheSame currentTransformNode transformNodes).map
        (fun action => action.data)
      = (transformNodes.filter (fun t =>
          !t.HideFromEditors && !decide (some t.ID = node.map (fun n => n.ID)))).map
            (fun t => some t.ID) := by
  induction transformNodes with
  | nil => rfl
  | cons t rest ih =>
    unfold transformNodeActions
    by_cases hhide : t.HideFromEditors = true
    · rw [if_pos hhide, List.filter_cons_of_neg (by simp [hhide])]
      exact ih
    · by_cases hself : some t.ID = node.map (fun n => n.ID)
      · rw [if_neg hhide, if_pos hself, List.filter_cons_of_neg (by simp [hself])]
        exact ih
      · rw [if_neg hhide, if_neg hself, List.filter_cons_of_pos (by simp [hhide, hself])]
        simp only [List.map_cons, ih]
        congr 1
        split <;> rfl

/-- The menu on the example: shown for item 3, whose data node is transform 10, it offers
transform 13 only; shown for the folder item 1, which has no data node, it offers the
transforms 10 and 13, transform 10 being the data node of the child item 3 and so one of
the nodes `applyTransformToItem` assigns to. -/
theorem transformNodeActions_example :
    (showTransformContextMenuActionsForItem exampleHandler
        qSlicerSubjectHierarchyTransformPluginPrivate.init 3).TransformActionGroup.map
          (fun action => action.data) = [some 13]
      ∧ (showTransformContextMenuActionsForItem exampleHandler
          qSlicerSubjectHierarchyTransformPluginPrivate.init 1).TransformActionGroup.map
            (fun action => action.data) = [some 10, some 13]
      ∧ (subtreeNodes exampleHandler 1).map (fun n => n.ID) = [11, 10] := by
  decide

/-- C1 on the example: applying transform 13 to the folder item 1 sets it on model 11 and on
transform 10 (the data nodes of its children) and leaves model 14 alone. -/
theorem applyTransformToItem_propagates_witness :
    ((applyTransformToItem exampleHandler 1 (some 13)).Scene.GetNodeByID 10
        = some (withTransformNodeID (some 13) (exampleTransform 10)))
      ∧ ((applyTransformToItem exampleHandler 1 (some 13)).Scene.GetNodeByID 14
        = some (exampleModel 14 none)) :=
  ⟨(applyTransformToItem_propagates exampleHandler 1 (some 13) 10).trans (by decide),
   (applyTransformToItem_propagates exampleHandler 1 (some 13) 14).trans (by decide)⟩

/-- C2 on the example: under the folder item 1, model 11 has parent transform 13 and
transform 10 has none, so the transform is not common; under item 2 it is. -/
theorem appliedTransformToItem_commonToAllChildren_witness :
    exampleHandler.subjectHierarchyNode = some exampleHierarchy
      ∧ (appliedTransformToItem exampleHandler 1).2 = false
      ∧ ((appliedTransformToItem exampleHandler 2).2 = true
          ↔ ∀ a ∈ subtreeTransformableNodes exampleHierarchy exampleHandler.Scene 2,
            ∀ b ∈ subtreeTransformableNodes exampleHierarchy exampleHandler.Scene 2,
              exampleHandler.Scene.GetParentTransformNode a
                = exampleHandler.Scene.GetParentTransformNode b) :=
  ⟨rfl, by decide,
   appliedTransformToItem_commonToAllChildren exampleHandler exampleHierarchy rfl 2⟩

/-- C3 on the example: Harden is enabled for the folder item 1 (model 11 is under transform
13). -/
theorem showTransformContextMenuActionsForItem_harden_witness :
    exampleHandler.subjectHierarchyNode = some exampleHierarchy
      ∧ exampleHandler.mrmlScene = some exampleScene
      ∧ (showTransformContextMenuActionsForItem exampleHandler
          qSlicerSubjectHierarchyTransformPluginPrivate.init 1).TransformHardenAction.enabled = true
      ∧ ∃ n ∈ subtreeTransformableNodes exampleHierarchy exampleHandler.Scene 1,
          exampleHandler.Scene.GetParentTransformNode n ≠ none :=
  ⟨rfl, rfl, by decide,
   (showTransformContextMenuActionsForItem_harden exampleHandler
      qSlicerSubjectHierarchyTransformPluginPrivate.init exampleHierarchy exampleScene
      rfl rfl 1).1.mp (by decide)⟩

/-- C4 on the example: for item 2 (model 11 under transform 13) Edit properties and
Interaction are enabled. -/
theorem showTransformContextMenuActionsForItem_edit_witness :
    exampleHandler.subjectHierarchyNode = some exampleHierarchy
      ∧ exampleHandler.mrmlScene = some exampleScene
      ∧ (showTransformContextMenuActionsForItem exampleHandler
          qSlicerSubjectHierarchyTransformPluginPrivate.init 2).TransformEditPropertiesAction.enabled
          = true
      ∧ (subtreeTransformableNodes exampleHierarchy exampleHandler.Scene 2 ≠ []
          ∧ ∃ t, ∀ n ∈ subtreeTransformableNodes exampleHierarchy exampleHandler.Scene 2,
              exampleHandler.Scene.GetParentTransformNode n = some t) :=
  ⟨rfl, rfl, by decide,
   (showTransformContextMenuActionsForItem_edit exampleHandler
      qSlicerSubjectHierarchyTransformPluginPrivate.init exampleHierarchy exampleScene
      rfl rfl 2).1.mp (by decide)⟩

/-- C6 on the example: the new transform gets ID 15, an ID no node had, and becomes the
parent transform of model 11 and of transform 10, the data nodes under the current item 1. -/
theorem onCreateNewTransform_creates_and_applies_witness :
    (exampleHandler.hasScene = true ∧ exampleHandler.Scene.NodeCreationSucceeds = true)
      ∧ (onCreateNewTransform exampleHandler).Scene.Nodes.map (fun n => n.ID)
        = exampleHandler.Scene.Nodes.map (fun n => n.ID) ++ [exampleHandler.Scene.GenerateUniqueID]
      ∧ (onCreateNewTransform exampleHandler).Scene.Nodes.map (fun n => (n.ID, n.TransformNodeID))
        = [(10, some 15), (11, some 15), (12, none), (13, none), (14, none), (15, none)] :=
  ⟨⟨rfl, rfl⟩, ((onCreateNewTransform_creates_and_applies exampleHandler).1 ⟨rfl, rfl⟩).1,
   by decide⟩

/-- C7 on the example: the first applied transform of the selection (item 1) is transform 13,
the parent of model 11; toggling interaction on gives it a display node with visible editor
and leaves transform 10 as it was. -/
theorem onTransformInteractionInViewToggled_first_witness :
    (appliedTransformsOfSelection exampleHandler).head? = some (exampleTransform 13)
      ∧ (onTransformInteractionInViewToggled exampleHandler true).Scene.GetNodeByID 13
        = some { exampleTransform 13 with DisplayNode := some { EditorVisibility := true } }
      ∧ (onTransformInteractionInViewToggled exampleHandler true).Scene.GetNodeByID 10
        = some (exampleTransform 10) := by
  have hhead : (appliedTransformsOfSelection exampleHandler).head? = some (exampleTransform 13) := by
    decide
  have hrun := onTransformInteractionInViewToggled_first exampleHandler true
  rw [hhead] at hrun
  exact ⟨hhead, (hrun.2 13).trans (by decide), (hrun.2 10).trans (by decide)⟩

end TransformPlugin
